import Mathlib

/-!
Verification of the multipart/form-data streaming encoder (`src/client.rs`).

The encoder is embedded shallowly: the destination stream is a state carrying
the bytes written so far together with an oracle of failing write operations,
each fallible write is a state transformer returning the new state and an
optional I/O error, and Rust's `try!` becomes sequencing that short-circuits
on the first error.  External collaborators (the `hyper` header map, the
`mime` rendering, the `mime_guess` lookup and the standard library's path
filename extraction) are modelled from the specification, as noted on each
definition.
-/

set_option maxHeartbeats 1000000

namespace MultipartClient

/-- Abstract payload of an I/O error produced by the transport (models the
`std::io::IoError` values carried by `IoResult`). -/
abbrev IoError := Nat

/-- State of the destination stream: `out` is everything written so far,
`fails` maps the index of a write operation to the I/O error the transport
raises on that operation (absent entries succeed), `idx` counts the write
operations attempted so far. -/
structure WState where
  out : String
  fails : List (Nat × IoError)
  idx : Nat
deriving DecidableEq

/-- Result of a fallible write sequence: final stream state plus the error
that aborted it, if any (models Rust's `IoResult<()>` with the stream
threaded through). -/
abbrev IoResult := WState × Option IoError

/-- One raw write to the stream: fails with the oracle's error for the current
operation index, otherwise appends the bytes. -/
def wr (st : WState) (data : String) : IoResult :=
  match st.fails.lookup st.idx with
  | some e => ({ st with idx := st.idx + 1 }, some e)
  | none => ({ st with out := st.out ++ data, idx := st.idx + 1 }, none)

/-- Sequencing of fallible writes; models `try!`: the continuation runs only
when no error occurred yet. -/
def andThen (r : IoResult) (f : WState → IoResult) : IoResult :=
  match r with
  | (st, none) => f st
  | (st, some e) => (st, some e)

/-- A file handle: its path and the byte content read from it (models
`std::io::fs::File` as seen by the encoder, which only extracts the path and
streams the content to end-of-stream). -/
structure File where
  path : String
  content : String
deriving DecidableEq

/-- Modelled from the spec: the `MultipartFile` value lives in the crate root
module, which is not among the provided sources; per the spec a file field
carries "an optional filename, a content-type descriptor, and a readable
byte-stream handle". -/
structure MultipartFile where
  filename : Option String
  reader : File
  content_type : String
deriving DecidableEq

/-- Modelled from the spec: constructor `MultipartFile::from_file` used by
`add_file`, packaging filename, borrowed file handle and content type. -/
def MultipartFile.from_file (filename : Option String) (file : File)
    (content_type : String) : MultipartFile :=
  { filename := filename, reader := file, content_type := content_type }

/-- Modelled from the spec: the `MultipartField` sum type from the crate root
module (not among the provided sources): a field value is either owned text
or a file. -/
inductive MultipartField where
  | Text (val : String)
  | File (file : MultipartFile)
deriving DecidableEq

/-- The field collection `Multipart`: ordered fields plus the boundary token. -/
structure Multipart where
  fields : List (String × MultipartField)
  boundary : String
deriving DecidableEq

/-- Split a character list at every occurrence of `sep` (helper for the
path-handling collaborators; always returns at least one segment). -/
def splitChar (sep : Char) : List Char → List (List Char)
  | [] => [[]]
  | c :: rest =>
    match splitChar sep rest with
    | [] => [[c]]
    | w :: ws => if c = sep then [] :: w :: ws else (c :: w) :: ws

/-- Modelled from the spec: the standard library's `Path::filename_str`
collaborator used by `add_file` — the last non-empty path component, absent
when the path has no extractable filename component (empty path, root, or a
path ending in `.` or `..`). -/
def filename_str (path : String) : Option String :=
  match ((splitChar '/' path.data).filter (fun c => !c.isEmpty)).getLast? with
  | none => none
  | some c =>
    if c = ['.'] ∨ c = ['.', '.'] then none else some (String.mk c)

/-- The extension of a path: the segment after the last dot, absent when the
path contains no dot (helper for the MIME-guessing collaborator). -/
def extension (path : String) : Option (List Char) :=
  match splitChar '.' path.data with
  | [] => none
  | [_] => none
  | l => l.getLast?

/-- Modelled from the spec: the external MIME-guessing collaborator
(`mime_guess::guess_mime_type`) — a best-guess content type from the file's
extension, defaulting to the generic binary type when no mapping is found. -/
def guess_mime_type (path : String) : String :=
  match extension path with
  | some e =>
    if e = ['t', 'x', 't'] then "text/plain"
    else if e = ['h', 't', 'm', 'l'] then "text/html"
    else if e = ['p', 'n', 'g'] then "image/png"
    else "application/octet-stream"
  | none => "application/octet-stream"

/-- The structured MIME value of the external `mime` crate: top level, sub
level and parameter list. -/
structure Mime where
  top : String
  sub : String
  params : List (String × String)
deriving DecidableEq

/-- `multipart_mime`: the multipart content type whose subtype is the literal
extension token `form-data` and whose single parameter is `boundary=<token>`. -/
def multipart_mime (bound : String) : Mime :=
  { top := "multipart", sub := "form-data", params := [("boundary", bound)] }

/-- Parameter tail of a rendered MIME value: `; attr=value` for each
parameter, values inserted verbatim. -/
def renderParams : List (String × String) → String
  | [] => ""
  | p :: rest => "; " ++ p.1 ++ "=" ++ p.2 ++ renderParams rest

/-- Modelled from the spec: the external `mime` crate's Display rendering of
a `Mime` value, `top/sub` followed by the parameters, with no quoting
transformation applied to parameter values. -/
def renderMime (m : Mime) : String :=
  m.top ++ "/" ++ m.sub ++ renderParams m.params

/-- A fresh (headers-mutable, body-not-started) HTTP request: its method and
its current header list (models `hyper`'s `Request<Fresh>`). -/
structure RequestFresh where
  method : String
  headers : List (String × String)
deriving DecidableEq

/-- Modelled from the spec: `hyper`'s `Headers::set`, which replaces any
existing value stored under the header name and stores the new value. -/
def headersSet (hs : List (String × String)) (name value : String) :
    List (String × String) :=
  hs.filter (fun p => p.1 != name) ++ [(name, value)]

/-- `Multipart::new`: empty field list with a freshly generated boundary; the
process-level random generation of the 8-character token is an external
effect, so the token is taken as a parameter. -/
def Multipart.new (boundary : String) : Multipart :=
  { fields := [], boundary := boundary }

/-- `add_text`: append a text field; no validation, always succeeds. -/
def add_text (m : Multipart) (name val : String) : Multipart :=
  { m with fields := m.fields ++ [(name, MultipartField.Text val)] }

/-- `add_file`: append a file field, deriving the display filename from the
handle's path and guessing the content type from the path; always succeeds
and reads no content at this point. -/
def add_file (m : Multipart) (name : String) (file : File) : Multipart :=
  { m with
    fields := m.fields ++ [(name, MultipartField.File
      (MultipartFile.from_file (filename_str file.path) file
        (guess_mime_type file.path)))] }

/-- `write_boundary`: the delimiter line `--<boundary>` followed by CRLF. -/
def write_boundary (st : WState) (boundary : String) : IoResult :=
  wr st ("--" ++ boundary ++ "\r\n")

/-- Modelled from the spec: `std::io::util::copy` streams the reader's bytes
to the destination until end-of-stream; at the level of bytes written this is
the file content appended to the stream. -/
def ioCopy (st : WState) (file : File) : IoResult :=
  wr st file.content

/-- `write_file`: optional `; filename="<filename>"` fragment, then the
`Content-Type` line followed by a blank line, then the raw file bytes. -/
def write_file (st : WState) (file : MultipartFile) : IoResult :=
  andThen
    (match file.filename with
     | some filename => wr st ("; filename=\"" ++ filename ++ "\"\r\n")
     | none => (st, none))
    (fun st =>
      andThen (wr st ("Content-Type: " ++ file.content_type ++ "\r\n\r\n"))
        (fun st => ioCopy st file.reader))

/-- `write_line`: a string followed by a CRLF sequence, never a bare `\n`. -/
def write_line (st : WState) (s : String) : IoResult :=
  andThen (wr st s) (fun st => wr st ("\r\n"))

/-- The loop body of `write_request`: for each field in order, the
`Content-Disposition` line with its terminator, the field content, and a
boundary line. -/
def write_fields (boundary : String) :
    List (String × MultipartField) → WState → IoResult
  | [], st => (st, none)
  | (name, field) :: rest, st =>
    andThen
      (wr st ("Content-Disposition: form-data; name=\"" ++ name ++
        "\"\r\n\r\n"))
      (fun st =>
        andThen
          (match field with
           | MultipartField.Text text => write_line st text
           | MultipartField.File file => write_file st file)
          (fun st =>
            andThen (write_boundary st boundary)
              (fun st => write_fields boundary rest st)))

/-- `write_request`: leading boundary line, then every field with its
trailing boundary line. -/
def write_request (m : Multipart) (st : WState) : IoResult :=
  andThen (write_boundary st m.boundary)
    (fun st => write_fields m.boundary m.fields st)

/-- `hyper`'s error type as used here: `send` surfaces I/O failures through
the single constructor `HttpIoError` wrapping the transport error. -/
inductive HttpError where
  | HttpIoError (e : IoError)
deriving DecidableEq

/-- `io_to_http`: map an I/O failure into the HTTP error domain by wrapping
it in `HttpIoError`, leaving successes untouched. -/
def io_to_http (r : IoResult) : WState × Option HttpError :=
  match r with
  | (st, none) => (st, none)
  | (st, some e) => (st, some (HttpError.HttpIoError e))

/-- `apply_headers`: set the request's `Content-Type` header to the rendered
multipart MIME value carrying the collection's boundary. -/
def apply_headers (m : Multipart) (req : RequestFresh) : RequestFresh :=
  { req with
    headers := headersSet req.headers ("Content-Type")
      (renderMime (multipart_mime m.boundary)) }

/-- Outcome of `send`: the assertion failure on a non-POST method (carrying
the untouched request and stream), an error after the request started
streaming, or a finished request. -/
inductive SendResult where
  | panicked (msg : String) (req : RequestFresh) (st : WState)
  | failed (e : HttpError) (headers : List (String × String)) (st : WState)
  | sent (headers : List (String × String)) (st : WState)
deriving DecidableEq

/-- `send`: assert the POST method, apply the headers, transition the request
to streaming (the external transition is modelled as succeeding), write the
body and finalize.  On a write failure the wrapped error is returned with the
stream as the failure left it. -/
def send (m : Multipart) (req : RequestFresh) (st : WState) : SendResult :=
  if req.method = "POST" then
    let req2 := apply_headers m req
    match io_to_http (write_request m st) with
    | (st2, none) => SendResult.sent req2.headers st2
    | (st2, some e) => SendResult.failed e req2.headers st2
  else
    SendResult.panicked ("Multipart request must use POST method!") req st

/-- Concatenation of a list of strings (specification-side helper). -/
def scat : List String → String
  | [] => ""
  | s :: rest => s ++ scat rest

/-- The delimiter line written by `write_boundary`. -/
def delim (b : String) : String := "--" ++ b ++ "\r\n"

/-- The `Content-Disposition` line written for every field, including the
CRLF that terminates it and the CRLF of the blank line that follows. -/
def cdLine (name : String) : String :=
  "Content-Disposition: form-data; name=\"" ++ name ++ "\"\r\n\r\n"

/-- The `Content-Disposition` header line itself, without its terminator. -/
def cdRaw (name : String) : String :=
  "Content-Disposition: form-data; name=\"" ++ name ++ "\""

/-- The writes `write_file` performs for one file field, in order. -/
def fileWrites (file : MultipartFile) : List String :=
  (match file.filename with
   | some filename => ["; filename=\"" ++ filename ++ "\"\r\n"]
   | none => []) ++
  ["Content-Type: " ++ file.content_type ++ "\r\n\r\n", file.reader.content]

/-- The content writes (after the `Content-Disposition` line) for one field. -/
def contentWrites : MultipartField → List String
  | MultipartField.Text t => [t, "\r\n"]
  | MultipartField.File file => fileWrites file

/-- All writes performed for one field: `Content-Disposition` line, content,
trailing boundary line. -/
def fieldWrites (b : String) (f : String × MultipartField) : List String :=
  cdLine f.1 :: (contentWrites f.2 ++ [delim b])

/-- Every write `write_request` performs, in order. -/
def requestWrites (m : Multipart) : List String :=
  delim m.boundary :: (m.fields.map (fieldWrites m.boundary)).flatten

/-- One encoded part: the `Content-Disposition` line followed by the field's
content (without the surrounding boundary lines). -/
def partStr (f : String × MultipartField) : String :=
  cdLine f.1 ++ scat (contentWrites f.2)

/-- Run a list of writes in order, short-circuiting on the first failure. -/
def runWrites : WState → List String → IoResult
  | st, [] => (st, none)
  | st, w :: ws => andThen (wr st w) (fun st => runWrites st ws)

/-- The body produced by `write_request` on a stream with no transport
failures. -/
def bodyOut (m : Multipart) : String :=
  (write_request m { out := "", fails := [], idx := 0 }).1.out

/-- Whether `p` is an initial segment of `s` (specification-side helper). -/
def beginsWith (p s : String) : Bool :=
  s.data.take p.data.length == p.data

/-- A recorded call to one of the two field-adding operations. -/
inductive AddOp where
  | text (name val : String)
  | file (name : String) (f : File)

/-- Apply one recorded call to a collection. -/
def applyOp (m : Multipart) : AddOp → Multipart
  | AddOp.text n v => add_text m n v
  | AddOp.file n f => add_file m n f

/-- Apply a sequence of recorded calls in order. -/
def applyOps (m : Multipart) : List AddOp → Multipart
  | [] => m
  | op :: rest => applyOps (applyOp m op) rest

/-- The field each recorded call appends. -/
def opField : AddOp → String × MultipartField
  | AddOp.text n v => (n, MultipartField.Text v)
  | AddOp.file n f =>
    (n, MultipartField.File (MultipartFile.from_file (filename_str f.path) f
      (guess_mime_type f.path)))

theorem andThen_none (st : WState) (f : WState → IoResult) :
    andThen (st, none) f = f st := rfl

theorem andThen_some (st : WState) (e : IoError) (f : WState → IoResult) :
    andThen (st, some e) f = (st, some e) := rfl

theorem andThen_pure (r : IoResult) : andThen r (fun st => (st, none)) = r := by
  obtain ⟨st, e⟩ := r
  cases e <;> rfl

theorem andThen_assoc (r : IoResult) (f g : WState → IoResult) :
    andThen (andThen r f) g = andThen r (fun st => andThen (f st) g) := by
  obtain ⟨st, e⟩ := r
  cases e <;> rfl

theorem runWrites_append (st : WState) (ws1 ws2 : List String) :
    runWrites st (ws1 ++ ws2)
      = andThen (runWrites st ws1) (fun st => runWrites st ws2) := by
  induction ws1 generalizing st with
  | nil => simp [runWrites, andThen_none]
  | cons w ws ih => simp [runWrites, andThen_assoc, ih]

theorem write_line_eq (st : WState) (s : String) :
    write_line st s = runWrites st [s, "\r\n"] := by
  simp [write_line, runWrites, andThen_pure]

theorem write_file_eq (st : WState) (file : MultipartFile) :
    write_file st file = runWrites st (fileWrites file) := by
  cases h : file.filename with
  | none =>
    simp [write_file, fileWrites, h, runWrites, andThen_none, andThen_pure,
      ioCopy]
  | some fn =>
    simp [write_file, fileWrites, h, runWrites, andThen_pure, ioCopy]

theorem write_fields_eq (b : String) (fs : List (String × MultipartField))
    (st : WState) :
    write_fields b fs st = runWrites st ((fs.map (fieldWrites b)).flatten) := by
  induction fs generalizing st with
  | nil => rfl
  | cons f rest ih =>
    obtain ⟨name, field⟩ := f
    cases field with
    | Text t =>
      simp [write_fields, fieldWrites, contentWrites, runWrites,
        runWrites_append, andThen_assoc, andThen_pure, write_line_eq,
        write_boundary, delim, cdLine, ih]
    | File file =>
      simp [write_fields, fieldWrites, contentWrites, runWrites,
        runWrites_append, andThen_assoc, andThen_pure, write_file_eq,
        write_boundary, delim, cdLine, ih]

theorem write_request_eq (m : Multipart) (st : WState) :
    write_request m st = runWrites st (requestWrites m) := by
  simp [write_request, requestWrites, runWrites, write_boundary, delim,
    write_fields_eq]

theorem runWrites_noFail (ws : List String) (o : String) (i : Nat) :
    runWrites { out := o, fails := [], idx := i } ws
      = ({ out := o ++ scat ws, fails := [], idx := i + ws.length }, none) := by
  induction ws generalizing o i with
  | nil => simp [runWrites, scat]
  | cons w ws ih =>
    show andThen (wr { out := o, fails := [], idx := i } w) _ = _
    rw [show wr { out := o, fails := [], idx := i } w
        = ({ out := o ++ w, fails := [], idx := i + 1 }, none) from rfl]
    rw [andThen_none]
    rw [ih]
    simp [scat, String.append_assoc, Nat.add_assoc, Nat.add_comm 1 ws.length]

theorem runWrites_fail (ws : List String) (o : String)
    (fl : List (Nat × IoError)) (i : Nat) (st2 : WState) (e : IoError)
    (h : runWrites { out := o, fails := fl, idx := i } ws = (st2, some e)) :
    ∃ j, j < ws.length ∧ st2.out = o ++ scat (ws.take j) ∧
      fl.lookup (i + j) = some e := by
  induction ws generalizing o i with
  | nil => simp [runWrites] at h
  | cons w ws ih =>
    rw [show runWrites { out := o, fails := fl, idx := i } (w :: ws)
        = andThen (wr { out := o, fails := fl, idx := i } w)
            (fun st => runWrites st ws) from rfl] at h
    cases hl : fl.lookup i with
    | some e1 =>
      rw [show wr { out := o, fails := fl, idx := i } w
          = ({ out := o, fails := fl, idx := i + 1 }, some e1) from by
            simp [wr, hl]] at h
      rw [andThen_some] at h
      obtain ⟨h1, h2⟩ := Prod.mk.injEq .. ▸ h
      refine ⟨0, by simp, ?_, ?_⟩
      · rw [← h1]
        simp [scat, String.append_empty]
      · rw [Nat.add_zero, hl]
        exact congrArg some (Option.some.injEq .. ▸ h2)
    | none =>
      rw [show wr { out := o, fails := fl, idx := i } w
          = ({ out := o ++ w, fails := fl, idx := i + 1 }, none) from by
            simp [wr, hl]] at h
      rw [andThen_none] at h
      obtain ⟨j, hj, hout, hlook⟩ := ih (o ++ w) (i + 1) h
      refine ⟨j + 1, by simp only [List.length_cons]; omega, ?_, ?_⟩
      · simp [List.take_succ_cons, scat, hout, String.append_assoc]
      · rw [show i + (j + 1) = i + 1 + j by omega]
        exact hlook

theorem scat_append (l1 l2 : List String) :
    scat (l1 ++ l2) = scat l1 ++ scat l2 := by
  induction l1 with
  | nil => simp [scat, String.empty_append]
  | cons s l ih => simp [scat, ih, String.append_assoc]

theorem scat_fieldWrites (b : String) (f : String × MultipartField) :
    scat (fieldWrites b f) = partStr f ++ delim b := by
  simp [fieldWrites, partStr, scat, scat_append, String.append_assoc,
    String.append_empty]

theorem scat_flatten_map (b : String) (fs : List (String × MultipartField)) :
    scat ((fs.map (fieldWrites b)).flatten)
      = scat (fs.map (fun f => partStr f ++ delim b)) := by
  induction fs with
  | nil => rfl
  | cons f fs ih =>
    simp [scat, scat_append, scat_fieldWrites, ih, partStr,
      String.append_assoc]

theorem bodyOut_eq (m : Multipart) :
    bodyOut m
      = delim m.boundary
        ++ scat (m.fields.map (fun f => partStr f ++ delim m.boundary)) := by
  rw [bodyOut, write_request_eq, requestWrites, runWrites_noFail]
  simp [scat, scat_flatten_map, String.empty_append]

theorem renderMime_multipart (b : String) :
    renderMime (multipart_mime b) = "multipart/form-data; boundary=" ++ b := by
  simp only [renderMime, multipart_mime, renderParams, String.append_empty,
    String.append_assoc]
  rw [← String.append_assoc]
  rfl

theorem lookup_append_right (k : String) (l1 l2 : List (String × String))
    (h : ∀ p ∈ l1, p.1 ≠ k) : (l1 ++ l2).lookup k = l2.lookup k := by
  induction l1 with
  | nil => rfl
  | cons p l ih =>
    obtain ⟨a, v⟩ := p
    have hp : a ≠ k := h (a, v) (by simp)
    have hb : (k == a) = false := by
      simp only [beq_eq_false_iff_ne]
      exact fun hh => hp hh.symm
    simp only [List.cons_append, List.lookup, hb]
    exact ih (fun q hq => h q (by simp [hq]))

theorem ct_lookup (m : Multipart) (req : RequestFresh) :
    (apply_headers m req).headers.lookup "Content-Type"
      = some ("multipart/form-data; boundary=" ++ m.boundary) := by
  rw [apply_headers]
  show (headersSet req.headers "Content-Type" _).lookup "Content-Type" = _
  rw [headersSet, lookup_append_right]
  · simp [List.lookup, renderMime_multipart]
  · intro p hp
    have := List.of_mem_filter hp
    simpa using this

theorem cdLine_split (name : String) :
    cdLine name = cdRaw name ++ "\r\n" ++ "\r\n" := by
  rw [cdLine, cdRaw]
  rw [show ("\"\r\n\r\n" : String) = "\"" ++ ("\r\n" ++ "\r\n") from rfl]
  simp [String.append_assoc]

theorem cdRaw_data (name : String) :
    (cdRaw name).data
      = ("Content-Disposition: form-data; name=\"").data
        ++ (name.data ++ ("\"").data) := by
  simp [cdRaw, String.data_append]

theorem cdRaw_no_content_type (name : String) :
    beginsWith "Content-Type" (cdRaw name) = false := by
  rw [beginsWith, cdRaw_data]
  rw [List.take_append_of_le_length (by decide)]
  decide

theorem applyOps_fields (m : Multipart) (ops : List AddOp) :
    (applyOps m ops).fields = m.fields ++ ops.map opField
      ∧ (applyOps m ops).boundary = m.boundary := by
  induction ops generalizing m with
  | nil => simp [applyOps]
  | cons op rest ih =>
    cases op with
    | text n v =>
      obtain ⟨h1, h2⟩ := ih (applyOp m (AddOp.text n v))
      refine ⟨?_, by simpa [applyOps, applyOp, add_text] using h2⟩
      rw [show applyOps m (AddOp.text n v :: rest)
          = applyOps (applyOp m (AddOp.text n v)) rest from rfl, h1]
      simp [applyOp, add_text, opField]
    | file n f =>
      obtain ⟨h1, h2⟩ := ih (applyOp m (AddOp.file n f))
      refine ⟨?_, by simpa [applyOps, applyOp, add_file] using h2⟩
      rw [show applyOps m (AddOp.file n f :: rest)
          = applyOps (applyOp m (AddOp.file n f)) rest from rfl, h1]
      simp [applyOp, add_file, opField]

/-- C1: the claim says the `; filename="<filename>"` fragment is placed on the
`Content-Disposition` header line before the CRLF that terminates it.  The
code instead writes the CRLF-CRLF header terminator immediately after the
`name` attribute for every field, so for a file field the filename fragment
and the `Content-Type` line land after the blank line: this theorem evaluates
the encoder at a concrete file field and exhibits the bytes actually
produced, with `\r\n\r\n` between `name="file1"` and `; filename="a.txt"`. -/
theorem file_part_actual_layout :
    bodyOut (add_file (Multipart.new "bndry123") "file1"
        { path := "a.txt", content := "hello" })
      = "--bndry123\r\nContent-Disposition: form-data; name=\"file1\"\r\n\r\n; filename=\"a.txt\"\r\nContent-Type: text/plain\r\n\r\nhello--bndry123\r\n" := by
  decide

/-- C2: the encoded body is exactly one delimiter line before each part — the
body decomposes as the delimiter followed by, for every added field in order,
that field's part and one more delimiter — the part count equals the number
of added fields, and the closing delimiter after the last part is the very
same `--<boundary>` CRLF line as the interior ones (no trailing `--`). -/
theorem encoded_body_boundary_structure (m : Multipart) :
    bodyOut m
      = delim m.boundary
        ++ scat (m.fields.map (fun f => partStr f ++ delim m.boundary))
    ∧ (m.fields.map partStr).length = m.fields.length
    ∧ delim m.boundary = "--" ++ m.boundary ++ "\r\n" :=
  ⟨bodyOut_eq m, by simp, rfl⟩

/-- C3: a text field with value `V` produces a part whose content after the
blank-line header terminator is exactly `V` followed by one CRLF; the only
header line of the part is the `Content-Disposition` line, which is not a
`Content-Type` line, and the writes for a text field contain no
`Content-Type` emission. -/
theorem text_part_content (b name V : String) :
    bodyOut { fields := [(name, MultipartField.Text V)], boundary := b }
      = delim b ++ ((cdRaw name ++ "\r\n") ++ ("\r\n" ++ (V ++ "\r\n")))
        ++ delim b
    ∧ contentWrites (MultipartField.Text V) = [V, "\r\n"]
    ∧ beginsWith "Content-Type" (cdRaw name) = false := by
  refine ⟨?_, rfl, cdRaw_no_content_type name⟩
  rw [bodyOut_eq]
  simp [partStr, contentWrites, scat, cdLine_split, String.append_assoc,
    String.append_empty]
  rw [show ("\r\n\r\n" : String) = "\r\n" ++ "\r\n" from rfl]
  simp only [String.append_assoc]

/-- C4: the parts of the encoded body appear in exactly the order in which
`add_text` and `add_file` were called, duplicates included: the collection's
field list is the per-call field list, and the body is the ordered
concatenation of the corresponding parts. -/
theorem parts_in_insertion_order (b : String) (ops : List AddOp) :
    (applyOps (Multipart.new b) ops).fields = ops.map opField
    ∧ bodyOut (applyOps (Multipart.new b) ops)
        = delim b
          ++ scat ((ops.map opField).map (fun f => partStr f ++ delim b)) := by
  obtain ⟨h1, h2⟩ := applyOps_fields (Multipart.new b) ops
  have hf : (applyOps (Multipart.new b) ops).fields = ops.map opField := by
    simpa [Multipart.new] using h1
  have hb : (applyOps (Multipart.new b) ops).boundary = b := by
    simpa [Multipart.new] using h2
  exact ⟨hf, by rw [bodyOut_eq, hf, hb]⟩

/-- C5: the outer request's `Content-Type` header is set to
`multipart/form-data; boundary=<token>` with the collection's boundary
inserted verbatim, and the very same `m.boundary` token forms every
`--<boundary>` CRLF delimiter line of the body. -/
theorem boundary_token_consistency (m : Multipart) (req : RequestFresh) :
    (apply_headers m req).headers.lookup "Content-Type"
      = some ("multipart/form-data; boundary=" ++ m.boundary)
    ∧ bodyOut m
        = ("--" ++ m.boundary ++ "\r\n")
          ++ scat (m.fields.map
              (fun f => partStr f ++ ("--" ++ m.boundary ++ "\r\n"))) := by
  refine ⟨ct_lookup m req, ?_⟩
  simpa [delim] using bodyOut_eq m

/-- C6: sending a request whose method is not POST fails fast with the
assertion, returning the request with its headers untouched and still in the
fresh (non-streaming) state and the stream with no bytes written. -/
theorem send_requires_post (m : Multipart) (req : RequestFresh) (st : WState)
    (h : req.method ≠ "POST") :
    send m req st
      = SendResult.panicked ("Multipart request must use POST method!") req
          st := by
  simp [send, h]

/-- Witness for C6 at a concrete GET request. -/
theorem send_requires_post_witness :
    send (Multipart.new "bb") { method := "GET", headers := [] }
        { out := "", fails := [], idx := 0 }
      = SendResult.panicked ("Multipart request must use POST method!")
          { method := "GET", headers := [] }
          { out := "", fails := [], idx := 0 } :=
  send_requires_post _ _ _ (by decide)

/-- C7: when any write of the body fails with transport error `e`, `send`
returns the single error `HttpIoError e` — the same wrapping regardless of
which write failed — and the stream holds only the writes that preceded the
failing one: all remaining writes were skipped. -/
theorem send_write_failure (m : Multipart) (req : RequestFresh) (o : String)
    (fl : List (Nat × IoError)) (i : Nat) (st2 : WState) (e : IoError)
    (hm : req.method = "POST")
    (hw : write_request m { out := o, fails := fl, idx := i }
      = (st2, some e)) :
    send m req { out := o, fails := fl, idx := i }
      = SendResult.failed (HttpError.HttpIoError e)
          (apply_headers m req).headers st2
    ∧ ∃ j, j < (requestWrites m).length
        ∧ st2.out = o ++ scat ((requestWrites m).take j)
        ∧ fl.lookup (i + j) = some e := by
  constructor
  · simp [send, hm, hw, io_to_http]
  · rw [write_request_eq] at hw
    exact runWrites_fail _ _ _ _ _ _ hw

/-- Witness for C7: the second write (the `Content-Disposition` line) fails
with error 5; `send` returns `HttpIoError 5` and only the leading boundary
line was written. -/
theorem send_write_failure_witness :
    send { fields := [("a", MultipartField.Text "v")], boundary := "bb" }
        { method := "POST", headers := [] }
        { out := "", fails := [(1, 5)], idx := 0 }
      = SendResult.failed (HttpError.HttpIoError 5)
          (apply_headers
            { fields := [("a", MultipartField.Text "v")], boundary := "bb" }
            { method := "POST", headers := [] }).headers
          { out := "--bb\r\n", fails := [(1, 5)], idx := 2 }
    ∧ ∃ j,
        j < (requestWrites
          { fields := [("a", MultipartField.Text "v")],
            boundary := "bb" }).length
        ∧ ({ out := "--bb\r\n", fails := [(1, 5)], idx := 2 } : WState).out
          = "" ++ scat ((requestWrites
              { fields := [("a", MultipartField.Text "v")],
                boundary := "bb" }).take j)
        ∧ ([(1, 5)] : List (Nat × IoError)).lookup (0 + j) = some 5 :=
  send_write_failure _ _ "" [(1, 5)] 0 _ 5 rfl (by decide)

/-- C8: with no transport failures `send` always succeeds — no validation
error exists for any field list, malformed names and empty files included,
all encoded as-is — and an empty collection produces a body consisting solely
of the closing boundary line `--<boundary>` CRLF. -/
theorem no_validation_errors (m : Multipart) (req : RequestFresh) (o : String)
    (i : Nat) (hm : req.method = "POST") :
    send m req { out := o, fails := [], idx := i }
      = SendResult.sent (apply_headers m req).headers
          { out := o ++ scat (requestWrites m), fails := [],
            idx := i + (requestWrites m).length }
    ∧ (m.fields = []
        → scat (requestWrites m) = "--" ++ m.boundary ++ "\r\n") := by
  constructor
  · simp [send, hm, write_request_eq, runWrites_noFail, io_to_http]
  · intro hf
    simp [requestWrites, hf, scat, delim, String.append_empty]

/-- Witness for C8 at an empty collection: the body is solely the closing
boundary line. -/
theorem no_validation_errors_witness :
    send { fields := [], boundary := "zz" }
        { method := "POST", headers := [] }
        { out := "", fails := [], idx := 0 }
      = SendResult.sent
          (apply_headers { fields := [], boundary := "zz" }
            { method := "POST", headers := [] }).headers
          { out := ""
              ++ scat (requestWrites { fields := [], boundary := "zz" }),
            fails := [],
            idx := 0 + (requestWrites
              { fields := [], boundary := "zz" }).length }
    ∧ scat (requestWrites { fields := [], boundary := "zz" })
      = "--" ++ "zz" ++ "\r\n" := by
  have h := no_validation_errors { fields := [], boundary := "zz" }
    { method := "POST", headers := [] } "" 0 rfl
  exact ⟨h.1, h.2 rfl⟩

/-- C9: `add_file` always succeeds and appends a file field whose display
filename is derived from the handle's path (absent exactly when the path has
no extractable filename component, since the stored filename is literally
`filename_str` of the path) and whose content type comes from the
MIME-guessing collaborator; the encoder omits the `; filename=` fragment
exactly when the filename is absent, and emits the `Content-Type` line in
either case. -/
theorem add_file_metadata (m : Multipart) (name : String) (f : File) :
    (add_file m name f).fields
      = m.fields ++ [(name, MultipartField.File
          (MultipartFile.from_file (filename_str f.path) f
            (guess_mime_type f.path)))]
    ∧ (add_file m name f).boundary = m.boundary
    ∧ (∀ file : MultipartFile, file.filename = none →
        fileWrites file
          = ["Content-Type: " ++ file.content_type ++ "\r\n\r\n",
             file.reader.content])
    ∧ (∀ file : MultipartFile, ∀ fn, file.filename = some fn →
        fileWrites file
          = ["; filename=\"" ++ fn ++ "\"\r\n",
             "Content-Type: " ++ file.content_type ++ "\r\n\r\n",
             file.reader.content]) := by
  refine ⟨rfl, rfl, ?_, ?_⟩
  · intro file h
    simp [fileWrites, h]
  · intro file fn h
    simp [fileWrites, h]

/-- Witness for C9: a path with a filename component stores it, a file part
with no filename still gets its `Content-Type` line, and one with a filename
gets the fragment before the `Content-Type` line. -/
theorem add_file_metadata_witness :
    (add_file (Multipart.new "b7") "doc"
        { path := "dir/notes.txt", content := "xyz" }).fields
      = [("doc", MultipartField.File
          (MultipartFile.from_file (filename_str "dir/notes.txt")
            { path := "dir/notes.txt", content := "xyz" }
            (guess_mime_type "dir/notes.txt")))]
    ∧ fileWrites
        { filename := none, reader := { path := "p", content := "c" },
          content_type := "text/html" }
      = ["Content-Type: text/html\r\n\r\n", "c"]
    ∧ fileWrites
        { filename := some "a.txt",
          reader := { path := "a.txt", content := "hello" },
          content_type := "text/plain" }
      = ["; filename=\"a.txt\"\r\n", "Content-Type: text/plain\r\n\r\n",
         "hello"] := by
  have h := add_file_metadata (Multipart.new "b7") "doc"
    { path := "dir/notes.txt", content := "xyz" }
  exact ⟨h.1, h.2.2.1 _ rfl, h.2.2.2 _ "a.txt" rfl⟩

/-- C10: applying the headers touches only `Content-Type`: for any other
header name the entries under that name are unchanged (none added, removed,
or modified), while `Content-Type` is set to the multipart value. -/
theorem apply_headers_frame (m : Multipart) (req : RequestFresh) (h : String)
    (hne : h ≠ "Content-Type") :
    (apply_headers m req).headers.filter (fun p => p.1 == h)
      = req.headers.filter (fun p => p.1 == h)
    ∧ (apply_headers m req).headers.lookup "Content-Type"
      = some ("multipart/form-data; boundary=" ++ m.boundary) := by
  refine ⟨?_, ct_lookup m req⟩
  have hb : (("Content-Type" : String) == h) = false := by
    simp only [beq_eq_false_iff_ne]
    exact fun hh => hne hh.symm
  rw [apply_headers]
  show (headersSet req.headers "Content-Type"
    (renderMime (multipart_mime m.boundary))).filter (fun p => p.1 == h) = _
  rw [headersSet, List.filter_append, List.filter_filter]
  have h2 : List.filter (fun p => p.1 == h)
      [("Content-Type", renderMime (multipart_mime m.boundary))] = [] := by
    simp [List.filter, hb]
  rw [h2, List.append_nil]
  apply List.filter_congr
  intro p _
  cases hph : (p.1 == h) with
  | false => simp [hph]
  | true =>
    have hpe : p.1 = h := by simpa using hph
    have hct : (p.1 != "Content-Type") = true := by
      simp [bne, hpe]
      exact hne
    simp [hph, hct]

/-- Witness for C10 at a request carrying an `Accept` header. -/
theorem apply_headers_frame_witness :
    (apply_headers (Multipart.new "zz")
        { method := "POST", headers := [("Accept", "*/*")] }).headers.filter
        (fun p => p.1 == "Accept")
      = ({ method := "POST",
           headers := [("Accept", "*/*")] } : RequestFresh).headers.filter
          (fun p => p.1 == "Accept")
    ∧ (apply_headers (Multipart.new "zz")
        { method := "POST", headers := [("Accept", "*/*")] }).headers.lookup
        "Content-Type"
      = some ("multipart/form-data; boundary=" ++ "zz") :=
  apply_headers_frame _ _ "Accept" (by decide)

end MultipartClient
